import Mathlib

set_option maxHeartbeats 1000000

/- Shallow embedding of the autotitle core:
   internal/matcher/matcher.go (template compiler, regex engine, filename generator),
   internal/renamer/renamer.go (Execute pipeline), internal/backup/backup.go (registry).
   Go strings are modelled as Lean String, byte/rune handling as Char lists (inputs are
   ASCII); the Go regexp engine is modelled as an anchored leftmost-first backtracking
   matcher over the exact sub-patterns Compile emits, with lazy and greedy operator
   preference as in Go regexp.Compile semantics. -/

namespace Autotitle

/-! Character and string utilities mirroring the Go standard library behavior used. -/

def lbrace : Char := Char.ofNat 123

def rbrace : Char := Char.ofNat 125

def isUpperOrUnderscore (c : Char) : Bool :=
  decide ((65 ≤ c.toNat ∧ c.toNat ≤ 90) ∨ c = '_')

def isDigitChar (c : Char) : Bool :=
  decide (48 ≤ c.toNat ∧ c.toNat ≤ 57)

def toLowerAscii (c : Char) : Char :=
  if 65 ≤ c.toNat ∧ c.toNat ≤ 90 then Char.ofNat (c.toNat + 32) else c

def toUpperAscii (c : Char) : Char :=
  if 97 ≤ c.toNat ∧ c.toNat ≤ 122 then Char.ofNat (c.toNat - 32) else c

/-- Whether the first list is a leading segment of the second. -/
def leadMatch : List Char → List Char → Bool
  | [], _ => true
  | _ :: _, [] => false
  | a :: as, b :: bs => if a = b then leadMatch as bs else false

def alookup {α : Type} : List (String × α) → String → Option α
  | [], _ => none
  | (k, v) :: rest, key => if k = key then some v else alookup rest key

/-- Decimal digits of a natural number (fuel-based so the kernel can evaluate it). -/
def natReprAux : Nat → Nat → List Char
  | 0, _ => []
  | fuel + 1, n =>
    if n < 10 then [Char.ofNat (48 + n)]
    else natReprAux fuel (n / 10) ++ [Char.ofNat (48 + n % 10)]

def natRepr (n : Nat) : String := String.mk (natReprAux (n + 1) n)

/-- Rendering of a Go int by the %d verb of fmt.Sprintf. -/
def intRepr (i : Int) : String :=
  if i < 0 then "-" ++ natRepr i.natAbs else natRepr i.toNat

def atoiAux : List Char → Int → Int
  | [], acc => acc
  | c :: cs, acc => atoiAux cs (acc * 10 + ((c.toNat - 48 : Nat) : Int))

/-- strconv.Atoi restricted to the digit-only strings captured by the EP_NUM group. -/
def atoi (s : String) : Int := atoiAux s.toList 0

/-- strings.ReplaceAll on character lists (left-to-right, non-overlapping);
    only called with a non-empty pattern. -/
def replaceAllF : Nat → List Char → List Char → List Char → List Char
  | 0, s, _, _ => s
  | fuel + 1, s, old, new =>
    if leadMatch old s then new ++ replaceAllF fuel (s.drop old.length) old new
    else
      match s with
      | [] => []
      | c :: cs => c :: replaceAllF fuel cs old new

def replaceAll (s old new : List Char) : List Char := replaceAllF (s.length + 1) s old new

/-- filepath.Join for the two-component uses in the renamer. -/
def joinPath (dir name : String) : String := if dir = "" then name else dir ++ "/" ++ name

/-- The extension characters of a filename per filepath.Ext: the suffix beginning at the
    final dot, empty if there is no dot (directory entries contain no path separator). -/
def extChars (s : String) : List Char :=
  let rev := s.toList.reverse
  let tail := rev.takeWhile (fun c => decide (c ≠ '.'))
  if tail.length = rev.length then [] else '.' :: tail.reverse

def filepathExt (s : String) : String := String.mk (extChars s)

/-! The template compiler (matcher.Compile).  Go Compile quotes the template with
    regexp.QuoteMeta and then rewrites every quoted occurrence of a double-braced
    [A-Z_]+ placeholder into a named capture group; scanning the raw template for
    double-braced [A-Z_]+ runs is the same transformation, since quoting is injective
    and literal characters match verbatim. -/

inductive PhKind where
  | freeText
  | epNum
  | lazyStar
  | res
deriving DecidableEq, Repr

/-- placeholderRegexMap: base name to sub-pattern kind.
    SERIES, SERIES_EN, SERIES_JP, EP_NAME compile to the lazy one-or-more sub-pattern;
    EP_NUM to greedy one-or-more digits; FILLER and ANY to the lazy zero-or-more
    sub-pattern; RES to the resolution alternation. -/
def placeholderRegexMap : List (String × PhKind) :=
  [("SERIES", PhKind.freeText), ("SERIES_EN", PhKind.freeText),
   ("SERIES_JP", PhKind.freeText), ("EP_NUM", PhKind.epNum),
   ("EP_NAME", PhKind.freeText), ("FILLER", PhKind.lazyStar),
   ("RES", PhKind.res), ("ANY", PhKind.lazyStar)]

inductive RawTok where
  | lit (c : Char)
  | ph (base : String)
deriving DecidableEq, Repr

/-- The characters of a double-braced placeholder occurrence. -/
def phLiteralChars (base : String) : List Char :=
  lbrace :: lbrace :: (base.toList ++ [rbrace, rbrace])

/-- Parse a double-braced [A-Z_]+ placeholder at the head of the list. -/
def parsePH (l : List Char) : Option (String × List Char) :=
  match l with
  | c1 :: c2 :: rest =>
    if c1 = lbrace ∧ c2 = lbrace then
      let nm := rest.takeWhile isUpperOrUnderscore
      match rest.drop nm.length with
      | d1 :: d2 :: rest2 =>
        if nm ≠ [] ∧ d1 = rbrace ∧ d2 = rbrace then some (String.mk nm, rest2) else none
      | _ => none
    else none
  | _ => none

def scanF : Nat → List Char → List RawTok
  | 0, _ => []
  | _ + 1, [] => []
  | fuel + 1, c :: cs =>
    match parsePH (c :: cs) with
    | some (nm, rest) => RawTok.ph nm :: scanF fuel rest
    | none => RawTok.lit c :: scanF fuel cs

def scanTemplate (l : List Char) : List RawTok := scanF (l.length + 1) l

/-- Whether a scanned token is a placeholder occurrence of the given base name. -/
def isPhOf (base : String) : RawTok → Bool
  | RawTok.ph b => decide (b = base)
  | RawTok.lit _ => false

/-- Number of occurrences of a placeholder base name (the totals map in Compile). -/
def countPh (toks : List RawTok) (base : String) : Nat :=
  (toks.filter (isPhOf base)).length

def splitUS : List Char → List Char → List (List Char)
  | [], acc => [acc.reverse]
  | c :: cs, acc => if c = '_' then acc.reverse :: splitUS cs [] else splitUS cs (c :: acc)

def capitalizePart : List Char → List Char
  | [] => []
  | c :: cs => toUpperAscii c :: cs.map toLowerAscii

/-- formatGroupName: split the base name on underscores and title-case each part. -/
def formatGroupName (baseName : String) : String :=
  String.mk (((splitUS baseName.toList []).map capitalizePart).flatten)

/-- A compiled pattern element.  lit and ph are produced by compilation; acc,
    digitsTry and resTry are intermediate search states of the matcher. -/
inductive Seg where
  | lit (s : List Char)
  | ph (base : String) (group : String) (kind : PhKind)
  | acc (group : String) (consumed : List Char)
  | digitsTry (group : String) (k : Nat)
  | resTry (group : String) (lens : List Nat)
deriving DecidableEq, Repr

def curCount (counts : List (String × Nat)) (base : String) : Nat :=
  (alookup counts base).getD 0

/-- The placeholder-numbering pass of Compile: each known placeholder occurrence gets a
    named group; the name carries a _k suffix exactly when the base occurs more than
    once in the whole template (totals over T); unknown placeholders stay literal. -/
def numberToks (T : List RawTok) : List RawTok → List (String × Nat) → List Seg
  | [], _ => []
  | RawTok.lit c :: rest, counts => Seg.lit [c] :: numberToks T rest counts
  | RawTok.ph base :: rest, counts =>
    match alookup placeholderRegexMap base with
    | none => Seg.lit (phLiteralChars base) :: numberToks T rest counts
    | some kind =>
      let c := curCount counts base + 1
      let g := formatGroupName base ++ (if countPh T base > 1 then "_" ++ natRepr c else "")
      Seg.ph base g kind :: numberToks T rest ((base, c) :: counts)

structure CompiledPattern where
  raw : String
  segs : List Seg
deriving DecidableEq, Repr

/-- matcher.Compile: strip the extension placeholder (".EXT" form first), scan for
    placeholders, and number the capture groups.  The compiled Go regex is anchored at
    both ends; the engine below matches the entire input accordingly. -/
def Compile (template : String) : CompiledPattern :=
  let t1 := replaceAll template.toList ('.' :: phLiteralChars "EXT") []
  let t2 := replaceAll t1 (phLiteralChars "EXT") []
  let toks := scanTemplate t2
  { raw := template, segs := numberToks toks toks [] }

/-! The matching engine: anchored leftmost-first backtracking with Go regexp operator
    preference (lazy sub-patterns prefer the shortest extension, greedy digit runs the
    longest, alternation prefers the left branch).  Fuel bounds the search depth; the
    bound below exceeds the depth of any search path. -/

abbrev Bindings := List (String × String)

def allDigits (l : List Char) : Bool := l.all isDigitChar

def hasDigits (input : List Char) (n : Nat) : Bool :=
  decide ((input.take n).length = n) && allDigits (input.take n)

def charAtIs (input : List Char) (n : Nat) (c : Char) : Bool :=
  match input.drop n with
  | d :: _ => decide (d = c)
  | [] => false

/-- Candidate consumed lengths for the RES alternation, in backtracking preference
    order: the NNNp branch first (4 digits preferred over 3), then the NxN branch
    (first width greedy, then second width greedy). -/
def resCandLens (input : List Char) : List Nat :=
  (if hasDigits input 4 && charAtIs input 4 'p' then [5] else []) ++
  (if hasDigits input 3 && charAtIs input 3 'p' then [4] else []) ++
  (if hasDigits input 4 && charAtIs input 4 'x' && hasDigits (input.drop 5) 4 then [9] else []) ++
  (if hasDigits input 4 && charAtIs input 4 'x' && hasDigits (input.drop 5) 3 then [8] else []) ++
  (if hasDigits input 3 && charAtIs input 3 'x' && hasDigits (input.drop 4) 4 then [8] else []) ++
  (if hasDigits input 3 && charAtIs input 3 'x' && hasDigits (input.drop 4) 3 then [7] else [])

def matchSegsF : Nat → List Seg → List Char → Option Bindings
  | 0, _, _ => none
  | _ + 1, [], [] => some []
  | _ + 1, [], _ :: _ => none
  | fuel + 1, Seg.lit s :: rest, input =>
    if leadMatch s input then matchSegsF fuel rest (input.drop s.length) else none
  | fuel + 1, Seg.ph _ group kind :: rest, input =>
    match kind with
    | PhKind.freeText =>
      match input with
      | [] => none
      | c :: cs => matchSegsF fuel (Seg.acc group [c] :: rest) cs
    | PhKind.lazyStar => matchSegsF fuel (Seg.acc group [] :: rest) input
    | PhKind.epNum =>
      let ds := input.takeWhile isDigitChar
      if ds.length = 0 then none
      else matchSegsF fuel (Seg.digitsTry group ds.length :: rest) input
    | PhKind.res => matchSegsF fuel (Seg.resTry group (resCandLens input) :: rest) input
  | fuel + 1, Seg.acc group consumed :: rest, input =>
    match matchSegsF fuel rest input with
    | some bs => some ((group, String.mk consumed) :: bs)
    | none =>
      match input with
      | [] => none
      | c :: cs => matchSegsF fuel (Seg.acc group (consumed ++ [c]) :: rest) cs
  | fuel + 1, Seg.digitsTry group k :: rest, input =>
    match k with
    | 0 => none
    | k' + 1 =>
      match matchSegsF fuel rest (input.drop (k' + 1)) with
      | some bs => some ((group, String.mk (input.take (k' + 1))) :: bs)
      | none => matchSegsF fuel (Seg.digitsTry group k' :: rest) input
  | fuel + 1, Seg.resTry group lens :: rest, input =>
    match lens with
    | [] => none
    | l :: ls =>
      match matchSegsF fuel rest (input.drop l) with
      | some bs => some ((group, String.mk (input.take l)) :: bs)
      | none => matchSegsF fuel (Seg.resTry group ls :: rest) input

def engineFuel (segs : List Seg) (input : List Char) : Nat :=
  (segs.length + 2) * (input.length + 8) + 8

def runEngine (segs : List Seg) (input : List Char) : Option Bindings :=
  matchSegsF (engineFuel segs input) segs input

structure MatchResult where
  episodeNum : Int
  resolution : String
  extension : String
deriving DecidableEq, Repr

/-- Pattern.Match: split off the extension; if it is empty return no-match without
    running the body pattern; otherwise match the basename against the anchored body
    pattern and expose every named capture plus the Ext field. -/
def CompiledPattern.Match (p : CompiledPattern) (filename : String) : Option Bindings :=
  let ec := extChars filename
  if ec.isEmpty then none
  else
    let body := filename.toList.take (filename.toList.length - ec.length)
    match runEngine p.segs body with
    | none => none
    | some bs => some (bs ++ [("Ext", String.mk (ec.drop 1))])

/-- Pattern.MatchTyped: the structured variant, looking up the first EpNum / Res group
    (bare name, else the _1-suffixed name) as getFirstSubexpIndex does. -/
def CompiledPattern.MatchTyped (p : CompiledPattern) (filename : String) : Option MatchResult :=
  let ec := extChars filename
  if ec.isEmpty then none
  else
    let body := filename.toList.take (filename.toList.length - ec.length)
    match runEngine p.segs body with
    | none => none
    | some bs =>
      let epNum := match (alookup bs "EpNum").orElse (fun _ => alookup bs "EpNum_1") with
        | some s => atoi s
        | none => 0
      let res := ((alookup bs "Res").orElse (fun _ => alookup bs "Res_1")).getD ""
      some { episodeNum := epNum, resolution := res, extension := String.mk (ec.drop 1) }

/-! The filename generator (matcher.GenerateFilenameFromFields).  The Go function's
    error return is always nil (resolveField treats unknown fields as literals), so the
    embedding returns the string directly. -/

structure TemplateVars where
  series : String := ""
  seriesEn : String := ""
  seriesJp : String := ""
  epNum : String := ""
  epName : String := ""
  filler : String := ""
  res : String := ""
  ext : String := ""
deriving DecidableEq, Repr

/-- padNumber: left-pad a non-empty number string with zeros to the given width. -/
def padNumber (s : String) (width : Int) : String :=
  if s = "" then ""
  else if width ≤ (s.length : Int) then s
  else String.mk (List.replicate (width - (s.length : Int)).toNat '0') ++ s

def FieldGlue : String := "+"

def resolveField (field : String) (vars : TemplateVars) (padding : Int) : String :=
  if field = "SERIES" then vars.series
  else if field = "SERIES_EN" then vars.seriesEn
  else if field = "SERIES_JP" then vars.seriesJp
  else if field = "EP_NUM" then padNumber vars.epNum padding
  else if field = "EP_NAME" then vars.epName
  else if field = "FILLER" then vars.filler
  else if field = "RES" then vars.res
  else
    let l := field.toList
    if 2 ≤ l.length ∧ l.head? = some '"' ∧ l.getLast? = some '"' then
      String.mk ((l.drop 1).dropLast)
    else field

/-- The padding normalization at the head of GenerateFilenameFromFields. -/
def normPad (padding : Int) : Int := if padding ≤ 0 then 3 else padding

/-- The loop of GenerateFilenameFromFields, with the builder, first and
    suppressNextSep state explicit. -/
def genLoop (sep : String) (vars : TemplateVars) (padding : Int) :
    List String → String → Bool → Bool → String
  | [], acc, _, _ => acc ++ "." ++ vars.ext
  | field :: rest, acc, first, suppress =>
    if field = FieldGlue then genLoop sep vars padding rest acc first true
    else
      let v := resolveField field vars padding
      if v = "" then genLoop sep vars padding rest acc first suppress
      else genLoop sep vars padding rest (acc ++ (if first ∨ suppress then "" else sep) ++ v) false false

def GenerateFilenameFromFields (fields : List String) (separator : String)
    (vars : TemplateVars) (padding : Int) : String :=
  genLoop separator vars (normPad padding) fields "" true false

/-- The non-empty resolved values of the token list, in order, each tagged with
    whether a glue token suppressed the separator in front of it. -/
def glueChunks (vars : TemplateVars) (padding : Int) : List String → Bool → List (String × Bool)
  | [], _ => []
  | field :: rest, suppress =>
    if field = FieldGlue then glueChunks vars padding rest true
    else
      let v := resolveField field vars padding
      if v = "" then glueChunks vars padding rest suppress
      else (v, suppress) :: glueChunks vars padding rest false

/-- Render chunks with the separator inserted only in front of a non-first,
    non-glued chunk: never leading, never trailing, never doubled. -/
def renderChunks (sep : String) : List (String × Bool) → Bool → String
  | [], _ => ""
  | (v, sup) :: rest, first =>
    (if first ∨ sup then "" else sep) ++ v ++ renderChunks sep rest false

/-! The renamer (internal/renamer/renamer.go).  Execute is modelled as a pure function
    of the directory listing; filesystem effects are an explicit action trace and a
    directory state (list of file paths), with os.Rename overwriting its destination.
    The backup manager's possible I/O failure is the backupErr parameter.  Events are
    not modelled.  compilePatterns cannot fail in the model since Compile is total
    (placeholder group names are valid and distinct), matching the Go behavior on every
    template; the "no valid patterns" early return is therefore unreachable. -/

structure Episode where
  number : Int
  title : String
  isFiller : Bool := false
deriving DecidableEq, Repr

structure Media where
  title : String := ""
  titleEN : String := ""
  titleJP : String := ""
  episodeCount : Int := 0
  episodes : List Episode := []
deriving DecidableEq, Repr

def Media.GetTitle (m : Media) (variant : String) : String :=
  if variant = "SERIES_JP" ∨ variant = "JP" then
    if m.titleJP ≠ "" then m.titleJP else m.title
  else if variant = "SERIES_EN" ∨ variant = "EN" then
    if m.titleEN ≠ "" then m.titleEN else m.title
  else m.title

def Media.GetEpisode (m : Media) (num : Int) : Option Episode :=
  m.episodes.find? (fun e => decide (e.number = num))

structure OutputConfig where
  fields : List String := []
  separator : String := ""
  offset : Int := 0
  padding : Int := 0
deriving DecidableEq, Repr

/-- config.Pattern: one pattern group of a Target. -/
structure PatternGroup where
  input : List String := []
  output : OutputConfig := {}
deriving DecidableEq, Repr

structure Target where
  patterns : List PatternGroup := []
deriving DecidableEq, Repr

inductive OpStatus where
  | pending
  | success
  | skipped
  | failed
deriving DecidableEq, Repr

structure RenameOperation where
  sourcePath : String
  targetPath : String
  episode : Option Episode := none
  status : OpStatus := OpStatus.pending
  error : String := ""
deriving DecidableEq, Repr

inductive Action where
  | backup (mappings : List (String × String))
  | rename (src dst : String)
deriving DecidableEq, Repr

structure Renamer where
  dryRun : Bool := false
  noBackup : Bool := false
  backupEnabled : Bool := true
  formats : List String := []
  offset : Option Int := none
deriving DecidableEq, Repr

def isVideoFile (formats : List String) (ext : String) : Bool :=
  let e := ext.toList.map toLowerAscii
  let e := match e with
    | c :: rest => if c = '.' then rest else c :: rest
    | [] => []
  formats.any (fun f => decide (f.toList = e))

/-- calculateSmartPadding: digit count of the maximum of EpisodeCount and every
    episode number, floored at 2. -/
def calculateSmartPadding (media : Media) : Int :=
  let maxEp := media.episodes.foldl
    (fun acc e => if e.number > acc then e.number else acc) media.episodeCount
  let digits : Int := ((intRepr maxEp).length : Nat)
  if digits > 2 then digits else 2

/-- MatchResultOffset: an explicit per-call override wins over the matched pattern
    group's configured offset (the pattern pointer is never nil at the call site). -/
def MatchResultOffset (globalOffset : Option Int) (pattern : PatternGroup) : Int :=
  match globalOffset with
  | some o => o
  | none => pattern.output.offset

def firstMatchIn : List String → String → Option MatchResult
  | [], _ => none
  | tpl :: rest, f =>
    match (Compile tpl).MatchTyped f with
    | some mr => some mr
    | none => firstMatchIn rest f

/-- The pattern-selection loop of Execute: first group whose first matching input
    template accepts the filename, in declaration order. -/
def findMatch : List PatternGroup → String → Option (MatchResult × PatternGroup)
  | [], _ => none
  | g :: gs, f =>
    match firstMatchIn g.input f with
    | some mr => some (mr, g)
    | none => findMatch gs f

def dfltGroup : PatternGroup := {}

/-- The tail of the per-entry planning step: build the operation from the generated
    filename, marking it Skipped when the target path equals the source path and
    recording the oldName-newName mapping otherwise. -/
def planFinish (dir filename newFilename : String) (ep : Episode) :
    RenameOperation × Option (String × String) :=
  let sourcePath := joinPath dir filename
  let targetPath := joinPath dir newFilename
  if sourcePath = targetPath then
    ({ sourcePath := sourcePath, targetPath := targetPath,
       episode := some ep, status := OpStatus.skipped }, none)
  else
    ({ sourcePath := sourcePath, targetPath := targetPath,
       episode := some ep, status := OpStatus.pending }, some (filename, newFilename))

/-- The padding resolution of Execute: the first group's configured padding,
    overridden by the matched group's when non-zero, falling back to the smart
    padding when still zero. -/
def effectivePadding (outputCfg : OutputConfig) (g : PatternGroup) (smartPadding : Int) : Int :=
  let padding := outputCfg.padding
  let padding := if g.output.padding ≠ 0 then g.output.padding else padding
  if padding = 0 then smartPadding else padding

/-- The resolved template variables Execute builds for a matched file. -/
def varsFor (media : Media) (mr : MatchResult) (ep : Episode) : TemplateVars :=
  { series := media.GetTitle "SERIES"
    seriesEn := media.GetTitle "SERIES_EN"
    seriesJp := media.GetTitle "SERIES_JP"
    epNum := intRepr ep.number
    epName := ep.title
    filler := if ep.isFiller then "[F]" else ""
    res := mr.resolution
    ext := mr.extension }

/-- The per-entry planning step of Execute: returns the operation and, for a
    non-skipped operation, the oldName-newName mapping recorded for backup.  The
    output token list and separator always come from the first pattern group; only
    the padding and the offset come from the matched group. -/
def planEntry (r : Renamer) (dir : String) (target : Target) (media : Media)
    (smartPadding : Int) (filename : String) :
    Option (RenameOperation × Option (String × String)) :=
  if !isVideoFile r.formats (filepathExt filename) then none
  else
    match findMatch target.patterns filename with
    | none => none
    | some (mr, g) =>
      match media.GetEpisode (mr.episodeNum + MatchResultOffset r.offset g) with
      | none => none
      | some ep =>
        some (planFinish dir filename
          (GenerateFilenameFromFields (target.patterns.headD dfltGroup).output.fields
            (target.patterns.headD dfltGroup).output.separator
            (varsFor media mr ep)
            (effectivePadding (target.patterns.headD dfltGroup).output g smartPadding))
          ep)

def planOf (r : Renamer) (dir : String) (entries : List String)
    (target : Target) (media : Media) :
    List (RenameOperation × Option (String × String)) :=
  entries.filterMap (planEntry r dir target media (calculateSmartPadding media))

def mappingsOf (r : Renamer) (dir : String) (entries : List String)
    (target : Target) (media : Media) : List (String × String) :=
  (planOf r dir entries target media).filterMap (fun p => p.2)

def removeFirst : List String → String → List String
  | [], _ => []
  | x :: xs, y => if x = y then xs else x :: removeFirst xs y

/-- One os.Rename on the directory state: fails when the source is absent,
    silently replaces an existing destination. -/
def fsRename (fs : List String) (src dst : String) : Option (List String) :=
  if fs.contains src then
    some ((removeFirst fs src).filter (fun n => decide (n ≠ dst)) ++ [dst])
  else none

/-- performRenames: sequentially rename every non-skipped operation (skipping all in
    dry-run), marking Success or Failed; a failure does not abort the rest. -/
def performRenames (r : Renamer) :
    List RenameOperation → List String → List RenameOperation × List String × List Action
  | [], fs => ([], fs, [])
  | op :: rest, fs =>
    if op.status = OpStatus.skipped then
      let pr := performRenames r rest fs
      (op :: pr.1, pr.2)
    else if r.dryRun then
      let pr := performRenames r rest fs
      (op :: pr.1, pr.2)
    else
      match fsRename fs op.sourcePath op.targetPath with
      | some fs1 =>
        let pr := performRenames r rest fs1
        ({ op with status := OpStatus.success } :: pr.1, pr.2.1,
         Action.rename op.sourcePath op.targetPath :: pr.2.2)
      | none =>
        let pr := performRenames r rest fs
        ({ op with status := OpStatus.failed, error := "rename failed" } :: pr.1, pr.2.1,
         Action.rename op.sourcePath op.targetPath :: pr.2.2)

structure ExecResult where
  trace : List Action
  result : Except String (List RenameOperation × List String)

/-- Renamer.Execute: plan one operation per matching entry, back up the non-skipped
    mappings (aborting with the backup error before any rename), then perform the
    renames. -/
def Execute (r : Renamer) (backupErr : Option String) (dir : String)
    (entries : List String) (target : Target) (media : Media) : ExecResult :=
  let ops := (planOf r dir entries target media).map (fun p => p.1)
  let mappings := mappingsOf r dir entries target media
  let pr := performRenames r ops (entries.map (joinPath dir))
  let shouldBackup := !r.dryRun && !r.noBackup && r.backupEnabled
  if shouldBackup && !mappings.isEmpty then
    match backupErr with
    | some e =>
      { trace := [Action.backup mappings], result := Except.error ("backup failed: " ++ e) }
    | none =>
      { trace := Action.backup mappings :: pr.2.2, result := Except.ok (pr.1, pr.2.1) }
  else
    { trace := pr.2.2, result := Except.ok (pr.1, pr.2.1) }

def opsOf (res : ExecResult) : List RenameOperation :=
  match res.result with
  | Except.ok (ops, _) => ops
  | Except.error _ => []

def fsOf (res : ExecResult) : List String :=
  match res.result with
  | Except.ok (_, fs) => fs
  | Except.error _ => []

/-! The backup registry (internal/backup/backup.go), happy path on the registry list:
    Backup first runs Clean (which calls removeFromRegistry on the directory's absolute
    path) and finally appends its fresh record via addRegistry. -/

structure BackupRecord where
  path : String
  sourceDir : String
  timestamp : Int
deriving DecidableEq, Repr

def removeFromRegistry (records : List BackupRecord) (sourceDir : String) : List BackupRecord :=
  records.filter (fun r => decide (r.sourceDir ≠ sourceDir))

def addRegistry (records : List BackupRecord) (r : BackupRecord) : List BackupRecord :=
  records ++ [r]

/-- The registry transition of one successful Backup(dir) call whose clean step's
    registry write succeeded: remove every record of absDir, then append the new one. -/
def backupRegistryUpdate (records : List BackupRecord) (absDir backupPath : String)
    (ts : Int) : List BackupRecord :=
  addRegistry (removeFromRegistry records absDir)
    { path := backupPath, sourceDir := absDir, timestamp := ts }

/-! Definitions used to state claims. -/

/-- Following the spec's words for the auto-padding width: the digit count of the
    maximum episode number across the Media's episode list, floored at 2. -/
def autoPadWidthSpec (m : Media) : Int :=
  let maxNum : Int := match m.episodes.map (fun e => e.number) with
    | [] => 0
    | x :: xs => xs.foldl (fun a b => max a b) x
  max 2 ((intRepr maxNum).length : Nat)

/-- Replace every pattern group's output fields and separator by those of the first
    group, keeping each group's padding and offset. -/
def normGroup (cfg : OutputConfig) (g : PatternGroup) : PatternGroup :=
  { g with output := { g.output with fields := cfg.fields, separator := cfg.separator } }

def normTarget (t : Target) : Target :=
  { patterns := t.patterns.map (normGroup (t.patterns.headD dfltGroup).output) }

/-- The capture group names a compiled pattern assigns to the occurrences of one
    placeholder base name, in template order. -/
def groupNamesFor (segs : List Seg) (base : String) : List String :=
  segs.filterMap (fun s =>
    match s with
    | Seg.ph b g _ => if b = base then some g else none
    | _ => none)

/-- Double-braced placeholder token as a string. -/
def phTok (base : String) : String := String.mk (phLiteralChars base)

/-! Concrete scenarios used by closed theorems and witnesses. -/

/-- The template of the repository's integration test (unnamed test file) and of the
    spec's concrete scenarios A and B. -/
def tplAnySeriesEp : String :=
  "[" ++ phTok "ANY" ++ "] " ++ phTok "SERIES" ++ " - " ++ phTok "EP_NUM" ++ "." ++ phTok "EXT"

def tplSeriesEp : String := phTok "SERIES" ++ " - " ++ phTok "EP_NUM"

/-- The target of the integration test: one pattern group, separator empty, literal
    " - " tokens between the fields. -/
def collisionTarget : Target :=
  { patterns := [ { input := [tplAnySeriesEp],
                    output := { fields := ["SERIES", " - ", "EP_NUM", " - ", "EP_NAME"] } } ] }

def collisionMedia : Media :=
  { title := "My show", episodes := [ { number := 1, title := "Episode One" } ] }

def collisionRenamer : Renamer := { backupEnabled := false, formats := ["mkv"] }

/-- Execute on the integration test's two files (in ReadDir's name order), which map
    to the same target name. -/
def collisionRun : ExecResult :=
  Execute collisionRenamer none ""
    ["[Other] [v2] My show - 01.mkv", "[Subs] [v2] My show - 01.mkv"]
    collisionTarget collisionMedia

def seriesEpTarget : Target :=
  { patterns := [ { input := [tplSeriesEp],
                    output := { fields := ["SERIES", "EP_NUM"], separator := " - " } } ] }

/-- Same shape as seriesEpTarget but with a configured per-pattern offset of 1. -/
def offsetTarget : Target :=
  { patterns := [ { input := [tplSeriesEp],
                    output := { fields := ["SERIES", "EP_NUM"], separator := " - ",
                                offset := 1 } } ] }

def offsetMedia : Media :=
  { title := "X", episodes := [ { number := 2, title := "t2" }, { number := 3, title := "t3" } ] }

/-- First (real) run over one file. -/
def offsetRun1 : ExecResult :=
  Execute { backupEnabled := false, formats := ["mkv"] } none "" ["X - 01.mkv"]
    offsetTarget offsetMedia

/-- Second (dry) run over the directory contents the first run produced. -/
def offsetRun2 : ExecResult :=
  Execute { dryRun := true, backupEnabled := false, formats := ["mkv"] } none ""
    (fsOf offsetRun1) offsetTarget offsetMedia

def padCounterMedia : Media :=
  { episodeCount := 100, episodes := [ { number := 5, title := "" } ] }

def pad711Media : Media :=
  { episodes := [ { number := 7, title := "" }, { number := 11, title := "" } ] }

/-! Helper lemmas. -/

theorem genLoop_eq (sep : String) (vars : TemplateVars) (padding : Int)
    (fields : List String) : ∀ (acc : String) (first suppress : Bool),
    genLoop sep vars padding fields acc first suppress =
      acc ++ renderChunks sep (glueChunks vars padding fields suppress) first ++ "." ++ vars.ext := by
  induction fields with
  | nil =>
    intro acc first suppress
    simp [genLoop, glueChunks, renderChunks, String.append_empty, String.append_assoc]
  | cons field rest ih =>
    intro acc first suppress
    by_cases hg : field = FieldGlue
    · simp only [genLoop, glueChunks, if_pos hg]
      exact ih acc first true
    · by_cases hv : resolveField field vars padding = ""
      · simp only [genLoop, glueChunks, if_neg hg, hv, if_pos rfl]
        exact ih acc first suppress
      · simp only [genLoop, glueChunks, if_neg hg, if_neg hv, renderChunks]
        rw [ih]
        simp [String.append_assoc]

theorem glueChunks_ne_empty (vars : TemplateVars) (padding : Int) (fields : List String) :
    ∀ (suppress : Bool) (c : String × Bool), c ∈ glueChunks vars padding fields suppress →
      c.1 ≠ "" := by
  induction fields with
  | nil => intro s c hc; simp [glueChunks] at hc
  | cons field rest ih =>
    intro s c hc
    by_cases hg : field = FieldGlue
    · exact ih true c (by simpa [glueChunks, if_pos hg] using hc)
    · by_cases hv : resolveField field vars padding = ""
      · exact ih s c (by simpa [glueChunks, if_neg hg, hv, if_pos rfl] using hc)
      · simp only [glueChunks, if_neg hg, if_neg hv, List.mem_cons] at hc
        rcases hc with h | h
        · rw [h]; exact hv
        · exact ih false c h

/-! The claims. -/

/-- C1 (code evidence): contrary to the claim and to the repository's own integration
test, Execute has no collision handling: on the test's two files both operations
targeting the same path are queued Pending, both renames are applied with the second
overwriting the first, no operation is Skipped with a Collision error, and the
directory ends up with a single file. -/
theorem C1_collision_unhandled :
    (opsOf collisionRun).map (fun o => (o.status, o.targetPath)) =
      [(OpStatus.success, "My show - 01 - Episode One.mkv"),
       (OpStatus.success, "My show - 01 - Episode One.mkv")] ∧
    collisionRun.trace =
      [Action.rename "[Other] [v2] My show - 01.mkv" "My show - 01 - Episode One.mkv",
       Action.rename "[Subs] [v2] My show - 01.mkv" "My show - 01 - Episode One.mkv"] ∧
    fsOf collisionRun = ["My show - 01 - Episode One.mkv"] :=
  ⟨rfl, rfl, rfl⟩

/-- C3: compiling the template of scenario A and matching the test filename binds
Any to "Subs", Series to "[v2] My show", EpNum to "01" and Ext to "mkv" (the lazy
placeholders prefer the shortest match that lets the rest of the template match, and
the extension is split off before body matching). -/
theorem C3_nongreedy_scenario :
    ((Compile tplAnySeriesEp).Match "[Subs] [v2] My show - 01.mkv").map
      (fun bs => (alookup bs "Any", alookup bs "Series", alookup bs "EpNum", alookup bs "Ext")) =
      some (some "Subs", some "[v2] My show", some "01", some "mkv") := rfl

/-- C4 (counterexample): with a per-pattern offset of 1, running Execute again on the
directory contents produced by a first successful run yields a Pending operation (the
episode number is shifted once more), not a Skipped-as-unchanged one. -/
theorem C4_idempotence_counterexample :
    (opsOf offsetRun1).map (fun o => (o.status, o.sourcePath, o.targetPath)) =
      [(OpStatus.success, "X - 01.mkv", "X - 02.mkv")] ∧
    fsOf offsetRun1 = ["X - 02.mkv"] ∧
    (opsOf offsetRun2).map (fun o => (o.status, o.sourcePath, o.targetPath)) =
      [(OpStatus.pending, "X - 02.mkv", "X - 03.mkv")] :=
  ⟨rfl, rfl, rfl⟩

/-- C7: the generated filename is exactly the non-empty resolved values rendered with
the separator emitted only in front of a non-first, non-glued value — never leading,
never trailing before the final dot-extension, never doubled — and tokens resolving to
the empty string contribute nothing. -/
theorem C7_separator_placement (fields : List String) (sep : String)
    (vars : TemplateVars) (padding : Int) :
    GenerateFilenameFromFields fields sep vars padding =
      renderChunks sep (glueChunks vars (normPad padding) fields false) true ++ "." ++ vars.ext
    ∧ ∀ c ∈ glueChunks vars (normPad padding) fields false, c.1 ≠ "" := by
  constructor
  · have h := genLoop_eq sep vars (normPad padding) fields "" true false
    simpa [GenerateFilenameFromFields, String.empty_append] using h
  · intro c hc
    exact glueChunks_ne_empty vars (normPad padding) fields false c hc

def c7Vars : TemplateVars := { series := "S", epNum := "7", ext := "mkv" }

theorem C7_separator_placement_witness :
    GenerateFilenameFromFields ["SERIES", "FILLER", "EP_NUM"] " - " c7Vars 0 =
      renderChunks " - " (glueChunks c7Vars (normPad 0) ["SERIES", "FILLER", "EP_NUM"] false) true
        ++ "." ++ c7Vars.ext :=
  (C7_separator_placement ["SERIES", "FILLER", "EP_NUM"] " - " c7Vars 0).1

/-- C9: Backup removes every registry record of the directory's absolute path before
appending its single fresh record, so after a successful Backup whose clean step's
registry write succeeded the registry holds exactly one record for that directory. -/
theorem C9_backup_registry_unique (records : List BackupRecord)
    (absDir backupPath : String) (ts : Int) :
    backupRegistryUpdate records absDir backupPath ts =
      records.filter (fun r => decide (r.sourceDir ≠ absDir)) ++
        [ { path := backupPath, sourceDir := absDir, timestamp := ts } ]
    ∧ (backupRegistryUpdate records absDir backupPath ts).countP
        (fun r => decide (r.sourceDir = absDir)) = 1 := by
  refine ⟨rfl, ?_⟩
  simp [backupRegistryUpdate, addRegistry, removeFromRegistry, List.countP_append,
    List.countP_filter, List.countP_eq_zero, List.countP_cons]

/-- C10: a filename whose extension component is empty is rejected before the body
pattern is attempted: for every compiled pattern, Match and MatchTyped return
no-match. -/
theorem C10_empty_extension_no_match (p : CompiledPattern) (filename : String)
    (h : extChars filename = []) :
    p.Match filename = none ∧ p.MatchTyped filename = none := by
  constructor
  · simp [CompiledPattern.Match, h]
  · simp [CompiledPattern.MatchTyped, h]

theorem C10_empty_extension_no_match_witness :
    extChars "myfile" = [] ∧
    (Compile (phTok "ANY")).Match "myfile" = none ∧
    (Compile (phTok "ANY")).MatchTyped "myfile" = none ∧
    runEngine (Compile (phTok "ANY")).segs "myfile".toList = some [("Any", "myfile")] :=
  ⟨rfl, (C10_empty_extension_no_match (Compile (phTok "ANY")) "myfile" rfl).1,
   (C10_empty_extension_no_match (Compile (phTok "ANY")) "myfile" rfl).2, rfl⟩

/-- C5 (counterexample): the auto-padding width is not the digit count of the maximum
episode number across the episode list floored at 2: with EpisodeCount 100 and a single
episode numbered 5, Execute's width is 3 while the claimed value is 2. -/
theorem C5_autopad_counterexample :
    calculateSmartPadding padCounterMedia ≠ autoPadWidthSpec padCounterMedia ∧
    calculateSmartPadding padCounterMedia = 3 ∧ autoPadWidthSpec padCounterMedia = 2 :=
  ⟨by decide, rfl, rfl⟩

/-- C5 (amended): the auto-padding width equals the digit count of the maximum of the
Media's EpisodeCount and every episode number in its list, floored at 2; episode 7 with
maximum episode 11 renders as "07" under auto padding, and an explicit padding of 3
renders it as "007" regardless of the auto-computed width. -/
theorem C5_autopad_amended :
    (∀ m : Media, calculateSmartPadding m =
      max 2 (((intRepr (m.episodes.foldl (fun a e => max a e.number) m.episodeCount)).length : Nat) : Int)) ∧
    calculateSmartPadding pad711Media = 2 ∧
    padNumber "7" (calculateSmartPadding pad711Media) = "07" ∧
    GenerateFilenameFromFields ["EP_NUM"] "" { epNum := "7", ext := "mkv" }
      (calculateSmartPadding pad711Media) = "07.mkv" ∧
    GenerateFilenameFromFields ["EP_NUM"] "" { epNum := "7", ext := "mkv" } 3 = "007.mkv" := by
  refine ⟨?_, rfl, rfl, rfl, rfl⟩
  intro m
  have hfold : (fun (acc : Int) (e : Episode) => if e.number > acc then e.number else acc)
      = fun (acc : Int) (e : Episode) => max acc e.number := by
    funext a e
    by_cases h : e.number > a
    · rw [if_pos h, max_eq_right h.le]
    · rw [if_neg h, max_eq_left (le_of_not_lt h)]
  simp only [calculateSmartPadding, hfold]
  by_cases h : (((intRepr (m.episodes.foldl (fun a e => max a e.number) m.episodeCount)).length : Nat) : Int) > 2
  · rw [if_pos h, max_eq_right h.le]
  · rw [if_neg h, max_eq_left (le_of_not_lt h)]

theorem performRenames_only_renames (r : Renamer) :
    ∀ (ops : List RenameOperation) (fs : List String) (a : Action),
      a ∈ (performRenames r ops fs).2.2 → ∃ s d, a = Action.rename s d := by
  intro ops
  induction ops with
  | nil => intro fs a ha; simp [performRenames] at ha
  | cons op rest ih =>
    intro fs a ha
    by_cases hs : op.status = OpStatus.skipped
    · rw [performRenames, if_pos hs] at ha
      exact ih fs a ha
    · by_cases hd : r.dryRun
      · rw [performRenames, if_neg hs, if_pos hd] at ha
        exact ih fs a ha
      · rw [performRenames, if_neg hs, if_neg hd] at ha
        cases hr : fsRename fs op.sourcePath op.targetPath with
        | some fs1 =>
          rw [hr] at ha
          rcases List.mem_cons.mp ha with h | h
          · exact ⟨op.sourcePath, op.targetPath, h⟩
          · exact ih fs1 a h
        | none =>
          rw [hr] at ha
          rcases List.mem_cons.mp ha with h | h
          · exact ⟨op.sourcePath, op.targetPath, h⟩
          · exact ih fs a h

/-- C2: with backups on and dry-run off and a non-empty mapping set, a failing backup
makes Execute return the backup error with no rename performed, and a successful backup
strictly precedes every rename action in the trace. -/
theorem C2_backup_precedes_renames (r : Renamer) (dir : String) (entries : List String)
    (t : Target) (m : Media) (e : String)
    (hdr : r.dryRun = false) (hnb : r.noBackup = false) (hbe : r.backupEnabled = true)
    (hm : mappingsOf r dir entries t m ≠ []) :
    (Execute r (some e) dir entries t m).result = Except.error ("backup failed: " ++ e) ∧
    (Execute r (some e) dir entries t m).trace =
      [Action.backup (mappingsOf r dir entries t m)] ∧
    ∃ racts, (Execute r none dir entries t m).trace =
        Action.backup (mappingsOf r dir entries t m) :: racts ∧
      ∀ a ∈ racts, ∃ s d, a = Action.rename s d := by
  have hne : (mappingsOf r dir entries t m).isEmpty = false := by
    cases h : mappingsOf r dir entries t m
    · exact absurd h hm
    · rfl
  refine ⟨?_, ?_, ⟨(performRenames r ((planOf r dir entries t m).map (fun p => p.1))
      (entries.map (joinPath dir))).2.2, ?_, ?_⟩⟩
  · simp [Execute, hdr, hnb, hbe, hne]
  · simp [Execute, hdr, hnb, hbe, hne]
  · simp [Execute, hdr, hnb, hbe, hne]
  · intro a ha
    exact performRenames_only_renames r _ _ a ha

def bkRenamer : Renamer := { formats := ["mkv"] }

def bkMedia : Media := { title := "A", episodes := [ { number := 1, title := "t" } ] }

theorem C2_backup_precedes_renames_witness :
    mappingsOf bkRenamer "" ["A - 1.mkv"] seriesEpTarget bkMedia ≠ [] ∧
    (Execute bkRenamer (some "boom") "" ["A - 1.mkv"] seriesEpTarget bkMedia).result =
      Except.error ("backup failed: " ++ "boom") ∧
    (Execute bkRenamer (some "boom") "" ["A - 1.mkv"] seriesEpTarget bkMedia).trace =
      [Action.backup (mappingsOf bkRenamer "" ["A - 1.mkv"] seriesEpTarget bkMedia)] :=
  ⟨by decide,
   (C2_backup_precedes_renames bkRenamer "" ["A - 1.mkv"] seriesEpTarget bkMedia "boom"
      rfl rfl rfl (by decide)).1,
   (C2_backup_precedes_renames bkRenamer "" ["A - 1.mkv"] seriesEpTarget bkMedia "boom"
      rfl rfl rfl (by decide)).2.1⟩

theorem performRenames_dryRun (r : Renamer) (hdr : r.dryRun = true) :
    ∀ (ops : List RenameOperation) (fs : List String),
      performRenames r ops fs = (ops, fs, []) := by
  intro ops
  induction ops with
  | nil => intro fs; rfl
  | cons op rest ih =>
    intro fs
    by_cases hs : op.status = OpStatus.skipped
    · rw [performRenames, if_pos hs, ih fs]
    · rw [performRenames, if_neg hs, if_pos hdr, ih fs]

theorem planFinish_status (dir f nf : String) (ep : Episode) :
    ((planFinish dir f nf ep).1.status = OpStatus.skipped ∧
      (planFinish dir f nf ep).1.targetPath = (planFinish dir f nf ep).1.sourcePath) ∨
    ((planFinish dir f nf ep).1.status = OpStatus.pending ∧
      (planFinish dir f nf ep).1.targetPath ≠ (planFinish dir f nf ep).1.sourcePath) := by
  simp only [planFinish]
  by_cases h : joinPath dir f = joinPath dir nf
  · rw [if_pos h]
    left
    exact ⟨rfl, h.symm⟩
  · rw [if_neg h]
    right
    exact ⟨rfl, fun hc => h hc.symm⟩

theorem planEntry_status (r : Renamer) (dir : String) (t : Target) (m : Media)
    (sp : Int) (f : String) (op : RenameOperation) (mo : Option (String × String))
    (h : planEntry r dir t m sp f = some (op, mo)) :
    (op.status = OpStatus.skipped ∧ op.targetPath = op.sourcePath) ∨
    (op.status = OpStatus.pending ∧ op.targetPath ≠ op.sourcePath) := by
  unfold planEntry at h
  repeat' split at h
  all_goals
    first
      | exact Option.noConfusion h
      | (rw [Option.some.injEq] at h
         have h1 : _ = op := congrArg Prod.fst h
         rw [← h1]
         exact planFinish_status _ _ _ _)

/-- C4 (amended): within one Execute call (statuses observed under dry-run, before any
rename is applied), a file's operation is Skipped precisely when its generated target
path equals its current path, and Pending otherwise; a second run therefore yields zero
Pending operations exactly when every regenerated name is unchanged, which a configured
nonzero offset violates. -/
theorem C4_idempotence_amended (r : Renamer) (be : Option String) (dir : String)
    (entries : List String) (t : Target) (m : Media) (hdr : r.dryRun = true)
    (op : RenameOperation) (hop : op ∈ opsOf (Execute r be dir entries t m)) :
    (op.status = OpStatus.skipped ∧ op.targetPath = op.sourcePath) ∨
    (op.status = OpStatus.pending ∧ op.targetPath ≠ op.sourcePath) := by
  have hops : opsOf (Execute r be dir entries t m) =
      (planOf r dir entries t m).map (fun p => p.1) := by
    simp [Execute, hdr, opsOf, performRenames_dryRun r hdr]
  rw [hops] at hop
  rcases List.mem_map.mp hop with ⟨pair, hpair, hpe⟩
  simp only [planOf] at hpair
  rcases List.mem_filterMap.mp hpair with ⟨f, -, hplan⟩
  obtain ⟨o, mo⟩ := pair
  have hst := planEntry_status r dir t m (calculateSmartPadding m) f o mo hplan
  simp only at hpe
  rwa [hpe] at hst

theorem countPh_lit (c : Char) (rest : List RawTok) (base : String) :
    countPh (RawTok.lit c :: rest) base = countPh rest base := by
  simp [countPh, List.filter_cons, isPhOf]

theorem countPh_ph_self (rest : List RawTok) (base : String) :
    countPh (RawTok.ph base :: rest) base = countPh rest base + 1 := by
  simp [countPh, List.filter_cons, isPhOf]

theorem countPh_ph_other (b : String) (rest : List RawTok) (base : String) (hb : b ≠ base) :
    countPh (RawTok.ph b :: rest) base = countPh rest base := by
  simp [countPh, List.filter_cons, isPhOf, hb]

theorem groupNamesFor_lit (s : List Char) (segs : List Seg) (base : String) :
    groupNamesFor (Seg.lit s :: segs) base = groupNamesFor segs base := by
  simp [groupNamesFor, List.filterMap_cons]

theorem groupNamesFor_ph_self (g : String) (k : PhKind) (segs : List Seg) (base : String) :
    groupNamesFor (Seg.ph base g k :: segs) base = g :: groupNamesFor segs base := by
  simp [groupNamesFor, List.filterMap_cons]

theorem groupNamesFor_ph_other (b g : String) (k : PhKind) (segs : List Seg)
    (base : String) (hb : b ≠ base) :
    groupNamesFor (Seg.ph b g k :: segs) base = groupNamesFor segs base := by
  simp [groupNamesFor, List.filterMap_cons, hb]

theorem curCount_cons_self (b : String) (c : Nat) (counts : List (String × Nat)) :
    curCount ((b, c) :: counts) b = c := by
  simp [curCount, alookup]

theorem curCount_cons_other (b : String) (c : Nat) (counts : List (String × Nat))
    (base : String) (hb : b ≠ base) :
    curCount ((b, c) :: counts) base = curCount counts base := by
  simp [curCount, alookup, hb]

/-- The numbering pass assigns, to the occurrences of a known base name, the formatted
    group name suffixed with successive counter values when the whole template holds
    more than one occurrence, and the bare formatted name otherwise. -/
theorem numberToks_names (T : List RawTok) (base : String) (kind : PhKind)
    (hk : alookup placeholderRegexMap base = some kind) :
    ∀ (toks : List RawTok) (counts : List (String × Nat)),
    groupNamesFor (numberToks T toks counts) base =
      if countPh T base > 1 then
        (List.range (countPh toks base)).map
          (fun i => formatGroupName base ++ ("_" ++ natRepr (curCount counts base + i + 1)))
      else
        List.replicate (countPh toks base) (formatGroupName base) := by
  intro toks
  induction toks with
  | nil =>
    intro counts
    simp [numberToks, groupNamesFor, countPh, ite_self]
  | cons tok rest ih =>
    intro counts
    cases tok with
    | lit c =>
      rw [countPh_lit]
      simp only [numberToks, groupNamesFor_lit]
      exact ih counts
    | ph b =>
      by_cases hb : b = base
      · subst hb
        simp only [numberToks, hk]
        rw [groupNamesFor_ph_self, countPh_ph_self,
          ih ((b, curCount counts b + 1) :: counts), curCount_cons_self]
        by_cases h1 : countPh T b > 1
        · rw [if_pos h1, if_pos h1, if_pos h1, List.range_succ_eq_map, List.map_cons,
            List.map_map]
          refine congrArg₂ _ ?_ ?_
          · exact congrArg (fun n => formatGroupName b ++ ("_" ++ natRepr n)) (by omega)
          · refine List.map_congr_left ?_
            intro i _
            exact congrArg (fun n => formatGroupName b ++ ("_" ++ natRepr n)) (by omega)
        · rw [if_neg h1, if_neg h1, if_neg h1, List.replicate_succ]
          rw [String.append_empty]
      · cases hkb : alookup placeholderRegexMap b with
        | none =>
          simp only [numberToks, hkb]
          rw [groupNamesFor_lit, countPh_ph_other b rest base hb]
          exact ih counts
        | some k2 =>
          simp only [numberToks, hkb]
          rw [groupNamesFor_ph_other _ _ _ _ _ hb, countPh_ph_other b rest base hb,
            ih ((b, curCount counts b + 1) :: counts), curCount_cons_other _ _ _ _ hb]

theorem numberToks_names_top (toks : List RawTok) (base : String) (kind : PhKind)
    (hk : alookup placeholderRegexMap base = some kind) :
    ((groupNamesFor (numberToks toks toks []) base).length = 1 →
      groupNamesFor (numberToks toks toks []) base = [formatGroupName base]) ∧
    (1 < (groupNamesFor (numberToks toks toks []) base).length →
      groupNamesFor (numberToks toks toks []) base =
        (List.range ((groupNamesFor (numberToks toks toks []) base).length)).map
          (fun i => formatGroupName base ++ ("_" ++ natRepr (i + 1)))) := by
  have h := numberToks_names toks base kind hk toks []
  have h0 : curCount ([] : List (String × Nat)) base = 0 := rfl
  rw [h0] at h
  by_cases h1 : countPh toks base > 1
  · rw [if_pos h1] at h
    simp only [Nat.zero_add] at h
    have hlen : (groupNamesFor (numberToks toks toks []) base).length = countPh toks base := by
      rw [h]; simp
    constructor
    · intro hl
      exfalso
      omega
    · intro _
      rw [hlen, h]
  · rw [if_neg h1] at h
    have hlen : (groupNamesFor (numberToks toks toks []) base).length = countPh toks base := by
      rw [h]; simp
    constructor
    · intro hl
      rw [hlen] at hl
      rw [h, hl]
      rfl
    · intro hg
      exfalso
      omega

/-- C6: a placeholder base name occurring exactly once in a template keeps its bare
formatted capture name, while a base name occurring more than once receives one
distinct capture identity per occurrence, the formatted name suffixed with the
occurrence index, so each occurrence's captured substring is recoverable
independently. -/
theorem C6_duplicate_placeholder_names (template base : String) (kind : PhKind)
    (hk : alookup placeholderRegexMap base = some kind) :
    ((groupNamesFor (Compile template).segs base).length = 1 →
      groupNamesFor (Compile template).segs base = [formatGroupName base]) ∧
    (1 < (groupNamesFor (Compile template).segs base).length →
      groupNamesFor (Compile template).segs base =
        (List.range ((groupNamesFor (Compile template).segs base).length)).map
          (fun i => formatGroupName base ++ ("_" ++ natRepr (i + 1)))) :=
  numberToks_names_top
    (scanTemplate (replaceAll (replaceAll template.toList
      ('.' :: phLiteralChars "EXT") []) (phLiteralChars "EXT") []))
    base kind hk

def tplDupAny : String := phTok "ANY" ++ " " ++ phTok "ANY" ++ " " ++ phTok "EP_NUM"

theorem C6_duplicate_placeholder_names_witness :
    alookup placeholderRegexMap "ANY" = some PhKind.lazyStar ∧
    groupNamesFor (Compile tplDupAny).segs "ANY" = ["Any_1", "Any_2"] ∧
    groupNamesFor (Compile tplDupAny).segs "EP_NUM" = ["EpNum"] := by
  refine ⟨rfl, ?_, ?_⟩
  · have h := (C6_duplicate_placeholder_names tplDupAny "ANY" PhKind.lazyStar rfl).2
      (by decide)
    rw [h]
    rfl
  · have h := (C6_duplicate_placeholder_names tplDupAny "EP_NUM" PhKind.epNum rfl).1
      (by decide)
    rw [h]
    rfl

theorem findMatch_map_norm (cfg : OutputConfig) :
    ∀ (gs : List PatternGroup) (f : String),
      findMatch (gs.map (normGroup cfg)) f =
        (findMatch gs f).map (fun p => (p.1, normGroup cfg p.2)) := by
  intro gs
  induction gs with
  | nil => intro f; rfl
  | cons g rest ih =>
    intro f
    simp only [List.map_cons, findMatch]
    cases hm : firstMatchIn g.input f with
    | some mr => simp [normGroup, hm]
    | none => simp [normGroup, hm, ih f]

theorem planEntry_norm (r : Renamer) (dir : String) (m : Media) (sp : Int)
    (t : Target) (f : String) :
    planEntry r dir (normTarget t) m sp f = planEntry r dir t m sp f := by
  obtain ⟨ps⟩ := t
  cases ps with
  | nil => rfl
  | cons g0 gs =>
    simp only [planEntry, normTarget]
    rw [findMatch_map_norm]
    cases hfm : findMatch (g0 :: gs) f with
    | none => rfl
    | some p =>
      obtain ⟨mr, g⟩ := p
      rfl

/-- C8: Execute reads the output token list and separator from the first pattern
group only — replacing every group's output fields and separator by the first
group's (keeping each group's padding and offset) does not change the result of
Execute, whichever group's input template matched. -/
theorem C8_output_from_first_group (r : Renamer) (be : Option String) (dir : String)
    (entries : List String) (t : Target) (m : Media) :
    Execute r be dir entries (normTarget t) m = Execute r be dir entries t m := by
  have hpo : planOf r dir entries (normTarget t) m = planOf r dir entries t m := by
    simp only [planOf]
    exact congrArg (fun pe => List.filterMap pe entries)
      (funext (planEntry_norm r dir m (calculateSmartPadding m) t))
  simp only [Execute, mappingsOf, hpo]

theorem C4_idempotence_amended_witness :
    ({ sourcePath := "A - 01.mkv", targetPath := "A - 01.mkv",
       episode := some { number := 1, title := "t" }, status := OpStatus.skipped,
       error := "" } : RenameOperation) ∈
      opsOf (Execute { dryRun := true, formats := ["mkv"] } none "" ["A - 01.mkv"]
        seriesEpTarget bkMedia) ∧
    ((({ sourcePath := "A - 01.mkv", targetPath := "A - 01.mkv",
         episode := some { number := 1, title := "t" }, status := OpStatus.skipped,
         error := "" } : RenameOperation).status = OpStatus.skipped ∧
       ("A - 01.mkv" : String) = "A - 01.mkv") ∨
     (({ sourcePath := "A - 01.mkv", targetPath := "A - 01.mkv",
         episode := some { number := 1, title := "t" }, status := OpStatus.skipped,
         error := "" } : RenameOperation).status = OpStatus.pending ∧
       ("A - 01.mkv" : String) ≠ "A - 01.mkv")) :=
  ⟨by decide,
   C4_idempotence_amended { dryRun := true, formats := ["mkv"] } none "" ["A - 01.mkv"]
     seriesEpTarget bkMedia rfl _ (by decide)⟩

end Autotitle
